import Mathlib

/-!
Verification of the data-preparation pipeline of the Titanic notebook
(`ApacheSparkwithPyspark.ipynb`): the CSV line parser `row_to_labeled_point`,
the header filter, the train/test splitter and the accuracy computation.
Lines are embedded as `List Char`; Python's fallible operations are embedded
as `Except`.
-/

namespace Titanic

/-- The result of `row_to_labeled_point`: a pyspark `LabeledPoint` with an
integer label and a list of integer feature codes (the notebook only ever
stores small exact integers in these float slots). -/
structure LabeledRecord where
  label : Int
  features : List Int
  deriving DecidableEq, Repr

/-- The distinct ways a call of `row_to_labeled_point` can raise in Python:
unpacking a list whose length is not 5 (`ValueError`), indexing `klass[0]`
on an empty string (`IndexError`), `int` applied to a non-digit character
(`ValueError`), and the explicit `RuntimeError` for an unknown
categorical value. -/
inductive ParseErr where
  | wrongFieldCount : ParseErr
  | classIndexError : ParseErr
  | classValueError : ParseErr
  | unknownValue : ParseErr
  deriving DecidableEq, Repr

instance {ε α : Type} [DecidableEq ε] [DecidableEq α] : DecidableEq (Except ε α) := fun x y =>
  match x, y with
  | .error a, .error b =>
    if h : a = b then isTrue (by rw [h]) else isFalse (by simp [h])
  | .ok a, .ok b =>
    if h : a = b then isTrue (by rw [h]) else isFalse (by simp [h])
  | .error _, .ok _ => isFalse (by simp)
  | .ok _, .error _ => isFalse (by simp)

/-- Python `line.split(',')`: split on every comma, keeping empty segments;
the empty string splits to one empty segment. -/
def splitComma : List Char → List (List Char)
  | [] => [[]]
  | c :: cs =>
    if c = ',' then [] :: splitComma cs
    else
      match splitComma cs with
      | [] => [[c]]
      | f :: rest => (c :: f) :: rest

/-- Python `segs.strip('"')`: remove every leading and every trailing
quote character. -/
def stripQuotes (l : List Char) : List Char :=
  ((l.dropWhile (fun c => c == '"')).reverse.dropWhile (fun c => c == '"')).reverse

/-- Python `int(c)` for a single character: its digit value, or a
`ValueError` (`none`) when `c` is not a decimal digit. -/
def pyIntOfChar (c : Char) : Option Int :=
  if c.isDigit then some ((c.toNat : Int) - 48) else none

def adultsTok : List Char := "adults".data
def childTok : List Char := "child".data
def manTok : List Char := "man".data
def womenTok : List Char := "women".data
def yesTok : List Char := "yes".data
def noTok : List Char := "no".data

/-- The body of `row_to_labeled_point` after the split/strip step: unpack the
five stripped fields (a `ValueError` otherwise), compute
`klass = int(klass[0]) - 1`, validate the age/sex/survived tokens
(`RuntimeError('unknown value')` otherwise) and build the `LabeledPoint`. -/
def parseFields : List (List Char) → Except ParseErr LabeledRecord
  | [_passenger_id, klass, age, sex, survived] =>
    match klass.head? with
    | none => .error .classIndexError
    | some c =>
      match pyIntOfChar c with
      | none => .error .classValueError
      | some n =>
        if (age ≠ adultsTok ∧ age ≠ childTok) ∨
           (sex ≠ manTok ∧ sex ≠ womenTok) ∨
           (survived ≠ yesTok ∧ survived ≠ noTok) then
          .error .unknownValue
        else
          .ok { label := if survived = yesTok then 1 else 0,
                features := [n - 1,
                             if age = adultsTok then 1 else 0,
                             if sex = womenTok then 1 else 0] }
  | _ => .error .wrongFieldCount

/-- `row_to_labeled_point`: strip the quote characters of every
comma-separated segment of the line, then parse the five fields. -/
def row_to_labeled_point (line : List Char) : Except ParseErr LabeledRecord :=
  parseFields ((splitComma line).map stripQuotes)

/-- A well-formed CSV field of the input file: it contains neither the
separator comma nor a quote character. -/
def cleanField (f : List Char) : Prop := (',' ∉ f) ∧ ('"' ∉ f)

instance (f : List Char) : Decidable (cleanField f) := by
  unfold cleanField
  infer_instance

/-- A quoted field, `"f"`. -/
def quoteField (f : List Char) : List Char := '"' :: (f ++ ['"'])

/-- The raw data line `"pid","k","a","s","v"`. -/
def mkLine (pid k a s v : List Char) : List Char :=
  quoteField pid ++ ',' ::
    (quoteField k ++ ',' :: (quoteField a ++ ',' :: (quoteField s ++ ',' :: quoteField v)))

lemma splitComma_no_comma (x : List Char) (h : ',' ∉ x) : splitComma x = [x] := by
  induction x with
  | nil => rfl
  | cons c cs ih =>
    have hc : ¬ c = ',' := fun hc => h (hc ▸ List.mem_cons_self c cs)
    have hcs : ',' ∉ cs := fun hm => h (List.mem_cons_of_mem _ hm)
    simp [splitComma, hc, ih hcs]

lemma splitComma_append (x rest : List Char) (h : ',' ∉ x) :
    splitComma (x ++ ',' :: rest) = x :: splitComma rest := by
  induction x with
  | nil => simp [splitComma]
  | cons c cs ih =>
    have hc : ¬ c = ',' := fun hc => h (hc ▸ List.mem_cons_self c cs)
    have hcs : ',' ∉ cs := fun hm => h (List.mem_cons_of_mem _ hm)
    simp [splitComma, hc, ih hcs]

lemma dropWhile_quote_of_not_mem (l : List Char) (h : '"' ∉ l) :
    l.dropWhile (fun c => c == '"') = l := by
  cases l with
  | nil => rfl
  | cons c cs =>
    have hc : (c == '"') = false := by
      simp only [beq_eq_false_iff_ne, ne_eq]
      rintro rfl
      exact h (List.mem_cons_self _ _)
    simp [List.dropWhile_cons, hc]

lemma stripQuotes_quoteField (f : List Char) (h : '"' ∉ f) :
    stripQuotes (quoteField f) = f := by
  cases f with
  | nil => rfl
  | cons c cs =>
    have hc : (c == '"') = false := by
      simp only [beq_eq_false_iff_ne, ne_eq]
      rintro rfl
      exact h (List.mem_cons_self _ _)
    have hrev : '"' ∉ cs.reverse ++ [c] := by
      rw [← List.reverse_cons]
      exact fun hm => h (List.mem_reverse.mp hm)
    have h1 : (quoteField (c :: cs)).dropWhile (fun x => x == '"') = c :: (cs ++ ['"']) := by
      simp [quoteField, List.dropWhile_cons, hc]
    have h2 : (c :: (cs ++ ['"'])).reverse = '"' :: (cs.reverse ++ [c]) := by
      rw [List.reverse_cons, List.reverse_append]
      rfl
    unfold stripQuotes
    rw [h1, h2, List.dropWhile_cons]
    simp only [beq_self_eq_true, if_true]
    rw [dropWhile_quote_of_not_mem _ hrev, ← List.reverse_cons, List.reverse_reverse]

lemma comma_not_mem_quoteField (f : List Char) (h : ',' ∉ f) : ',' ∉ quoteField f := by
  intro hm
  simp only [quoteField, List.mem_cons, List.mem_append, List.mem_singleton] at hm
  rcases hm with hm | hm | hm
  · exact absurd hm (by decide)
  · exact h hm
  · exact absurd hm (by decide)

lemma split_mkLine (pid k a s v : List Char)
    (hpid : ',' ∉ pid) (hk : ',' ∉ k) (ha : ',' ∉ a) (hs : ',' ∉ s) (hv : ',' ∉ v) :
    splitComma (mkLine pid k a s v) =
      [quoteField pid, quoteField k, quoteField a, quoteField s, quoteField v] := by
  unfold mkLine
  rw [splitComma_append _ _ (comma_not_mem_quoteField _ hpid),
      splitComma_append _ _ (comma_not_mem_quoteField _ hk),
      splitComma_append _ _ (comma_not_mem_quoteField _ ha),
      splitComma_append _ _ (comma_not_mem_quoteField _ hs),
      splitComma_no_comma _ (comma_not_mem_quoteField _ hv)]

/-- Parsing a well-formed quoted line reduces to parsing its five bare fields. -/
lemma parse_mkLine (pid k a s v : List Char)
    (hpid : cleanField pid) (hk : cleanField k) (ha : cleanField a)
    (hs : cleanField s) (hv : cleanField v) :
    row_to_labeled_point (mkLine pid k a s v) = parseFields [pid, k, a, s, v] := by
  unfold row_to_labeled_point
  rw [split_mkLine pid k a s v hpid.1 hk.1 ha.1 hs.1 hv.1]
  simp [stripQuotes_quoteField _ hpid.2, stripQuotes_quoteField _ hk.2,
    stripQuotes_quoteField _ ha.2, stripQuotes_quoteField _ hs.2,
    stripQuotes_quoteField _ hv.2]

def class1Tok : List Char := "1st class".data
def class2Tok : List Char := "2nd class".data
def class3Tok : List Char := "3rd class".data

/-- The spec's end-to-end scenario line. -/
def specLine : List Char := "\"1\",\"1st class\",\"adults\",\"man\",\"yes\"".data

/-- A line carrying the spec's claimed tokens `adult` and `woman`. -/
def adultWomanLine : List Char := "\"1\",\"1st class\",\"adult\",\"woman\",\"yes\"".data

/-- C5: parsing the input line `"1","1st class","adults","man","yes"` succeeds and
yields a LabeledRecord with label 1 and feature vector [0, 1, 0]. -/
theorem C5_end_to_end_line :
    row_to_labeled_point specLine = .ok ⟨1, [0, 1, 0]⟩ := by decide

/-- C1 counterexample: the claim says a line with age `adult` and sex `woman`
parses successfully, but the parser only knows the tokens `adults` and `women`,
so the line `"1","1st class","adult","woman","yes"` is rejected with the
unknown-value error. -/
theorem C1_cex_adult_woman_rejected :
    row_to_labeled_point adultWomanLine = .error .unknownValue := by decide

/-- C1 (amended): for every well-formed five-field quoted line whose class field
begins with a decimal digit, the parser accepts exactly when the age token is one
of `adults`, `child`, the sex token one of `man`, `women`, and the survived token
one of `yes`, `no`; in particular any such line with age `adults` and sex `women`
parses successfully. -/
theorem C1_amended_accepts_iff (pid k a s v : List Char)
    (hpid : cleanField pid) (hk : cleanField k) (ha : cleanField a)
    (hs : cleanField s) (hv : cleanField v)
    (c : Char) (hc : k.head? = some c) (hdig : c.isDigit = true) :
    (∃ r, row_to_labeled_point (mkLine pid k a s v) = .ok r) ↔
      ((a = adultsTok ∨ a = childTok) ∧ (s = manTok ∨ s = womenTok) ∧
       (v = yesTok ∨ v = noTok)) := by
  rw [parse_mkLine pid k a s v hpid hk ha hs hv]
  rcases k with _ | ⟨c0, k'⟩
  · exact absurd hc (by simp)
  · rw [List.head?_cons] at hc
    injection hc with hc0
    subst hc0
    simp only [parseFields, List.head?_cons, pyIntOfChar, hdig, if_true]
    constructor
    · rintro ⟨r, hr⟩
      by_contra hcon
      rw [if_pos ?_] at hr
      · exact Except.noConfusion hr
      · push_neg at hcon
        tauto
    · rintro ⟨ha', hs', hv'⟩
      rw [if_neg ?_]
      · exact ⟨_, rfl⟩
      · push_neg
        tauto

/-- C1 amended, at a concrete input: the line
`"7","2nd class","adults","women","yes"` parses successfully. -/
theorem C1_amended_witness :
    cleanField ("7".data) ∧ cleanField class2Tok ∧ cleanField adultsTok ∧
    cleanField womenTok ∧ cleanField yesTok ∧
    class2Tok.head? = some '2' ∧ ('2'.isDigit = true) ∧
    ((∃ r, row_to_labeled_point (mkLine ("7".data) class2Tok adultsTok womenTok yesTok) =
        .ok r) ↔
      ((adultsTok = adultsTok ∨ adultsTok = childTok) ∧
       (womenTok = manTok ∨ womenTok = womenTok) ∧
       (yesTok = yesTok ∨ yesTok = noTok))) :=
  ⟨by decide, by decide, by decide, by decide, by decide, by decide, by decide,
   C1_amended_accepts_iff _ _ _ _ _ (by decide) (by decide) (by decide) (by decide)
     (by decide) '2' (by decide) (by decide)⟩

/-- Any five-field input whose age, sex or survived token is unrecognized parses
to an error. -/
lemma parseFields_bad_token (pid k a s v : List Char)
    (hbad : (a ≠ adultsTok ∧ a ≠ childTok) ∨ (s ≠ manTok ∧ s ≠ womenTok) ∨
            (v ≠ yesTok ∧ v ≠ noTok)) :
    ∃ e, parseFields [pid, k, a, s, v] = .error e := by
  rcases k with _ | ⟨c, k'⟩
  · exact ⟨.classIndexError, rfl⟩
  · rcases hint : pyIntOfChar c with _ | n
    · refine ⟨.classValueError, ?_⟩
      simp only [parseFields, List.head?_cons, hint]
    · refine ⟨.unknownValue, ?_⟩
      simp only [parseFields, List.head?_cons, hint]
      rw [if_pos hbad]

/-- C3: for every input line with five fields in which the age, sex or survived
token is not in the fixed known-value set, the parser produces an error and no
LabeledRecord. -/
theorem C3_unknown_token_fails (l pid k a s v : List Char)
    (hsplit : (splitComma l).map stripQuotes = [pid, k, a, s, v])
    (hbad : (a ≠ adultsTok ∧ a ≠ childTok) ∨ (s ≠ manTok ∧ s ≠ womenTok) ∨
            (v ≠ yesTok ∧ v ≠ noTok)) :
    ∃ e, row_to_labeled_point l = .error e := by
  unfold row_to_labeled_point
  rw [hsplit]
  exact parseFields_bad_token pid k a s v hbad

/-- A line with the unrecognized age token `adult`. -/
def badAgeLine : List Char := "\"5\",\"2nd class\",\"adult\",\"man\",\"no\"".data

/-- C3 at a concrete input: the line `"5","2nd class","adult","man","no"`
splits into five fields with an unrecognized age token and parses to an error. -/
theorem C3_unknown_token_fails_witness :
    ((splitComma badAgeLine).map stripQuotes =
      ["5".data, class2Tok, "adult".data, manTok, noTok]) ∧
    (("adult".data ≠ adultsTok ∧ "adult".data ≠ childTok) ∨
     (manTok ≠ manTok ∧ manTok ≠ womenTok) ∨ (noTok ≠ yesTok ∧ noTok ≠ noTok)) ∧
    (∃ e, row_to_labeled_point badAgeLine = .error e) :=
  ⟨by decide, by decide,
   C3_unknown_token_fails badAgeLine ("5".data) class2Tok ("adult".data) manTok noTok
     (by decide) (by decide)⟩

/-- A line whose class field starts with the digit 4. -/
def fourthClassLine : List Char := "\"1\",\"4th class\",\"adults\",\"man\",\"yes\"".data

/-- A line whose class field starts with a letter. -/
def alphaClassLine : List Char := "\"2\",\"first\",\"adults\",\"man\",\"no\"".data

/-- C4 counterexample: the claim says no LabeledRecord with a class code outside
0, 1, 2 is ever produced, but the parser never validates the class field: the
line `"1","4th class","adults","man","yes"` parses successfully to a record with
class code 3. -/
theorem C4_cex_class_not_validated :
    row_to_labeled_point fourthClassLine = .ok ⟨1, [3, 1, 0]⟩ ∧
    ¬ ((3 : Int) = 0 ∨ (3 : Int) = 1 ∨ (3 : Int) = 2) := by decide

/-- C4 (amended): the parser only fails on the class field when it is empty or
does not begin with a decimal digit, and then with the integer-conversion error,
not the unknown-value error; when the class field begins with a digit `d` the
record's class code is `d - 1`, which may lie outside 0, 1, 2. -/
theorem C4_amended_nondigit_class_fails (l pid k a s v : List Char)
    (hsplit : (splitComma l).map stripQuotes = [pid, k, a, s, v])
    (hnd : ∀ c, k.head? = some c → c.isDigit = false) :
    ∃ e, row_to_labeled_point l = .error e ∧
      (e = .classIndexError ∨ e = .classValueError) := by
  unfold row_to_labeled_point
  rw [hsplit]
  rcases k with _ | ⟨c, k'⟩
  · exact ⟨.classIndexError, rfl, Or.inl rfl⟩
  · have hdig : c.isDigit = false := hnd c (List.head?_cons)
    have hint : pyIntOfChar c = none := by
      unfold pyIntOfChar
      rw [hdig]
      rfl
    refine ⟨.classValueError, ?_, Or.inr rfl⟩
    simp only [parseFields, List.head?_cons, hint]

/-- C4 amended, at a concrete input: the line `"2","first","adults","man","no"`
has a class field starting with a letter and parses to the integer-conversion
error. -/
theorem C4_amended_witness :
    ((splitComma alphaClassLine).map stripQuotes =
      ["2".data, "first".data, adultsTok, manTok, noTok]) ∧
    (∃ e, row_to_labeled_point alphaClassLine = .error e ∧
      (e = .classIndexError ∨ e = .classValueError)) :=
  ⟨by decide,
   C4_amended_nondigit_class_fails alphaClassLine ("2".data) ("first".data)
     adultsTok manTok noTok (by decide)
     (by
       intro c hc
       rw [show ("first".data).head? = some 'f' by decide] at hc
       injection hc with hc0
       rw [← hc0]
       decide)⟩

/-- The inverse of the documented class encoding:
0 = 1st class, 1 = 2nd class, 2 = 3rd class. -/
def decodeClass (n : Int) : Option (List Char) :=
  if n = 0 then some class1Tok
  else if n = 1 then some class2Tok
  else if n = 2 then some class3Tok
  else none

/-- The inverse of the documented age-group encoding: 0 = child, 1 = adults. -/
def decodeAge (n : Int) : Option (List Char) :=
  if n = 1 then some adultsTok else if n = 0 then some childTok else none

/-- The inverse of the gender encoding: 0 = man, 1 = women. -/
def decodeGender (n : Int) : Option (List Char) :=
  if n = 1 then some womenTok else if n = 0 then some manTok else none

/-- The inverse of the survival encoding: 0 = no, 1 = yes. -/
def decodeSurvived (n : Int) : Option (List Char) :=
  if n = 1 then some yesTok else if n = 0 then some noTok else none

/-- C2: for every valid data line (all four categorical fields drawn from the
known textual categories), parsing succeeds and decoding the record's integer
codes recovers exactly the original class, age, sex and survived strings. -/
theorem C2_roundtrip (pid k a s v : List Char)
    (hpid : cleanField pid)
    (hk : k = class1Tok ∨ k = class2Tok ∨ k = class3Tok)
    (ha : a = adultsTok ∨ a = childTok)
    (hs : s = manTok ∨ s = womenTok)
    (hv : v = yesTok ∨ v = noTok) :
    ∃ r, row_to_labeled_point (mkLine pid k a s v) = .ok r ∧
      decodeClass (r.features.getD 0 9) = some k ∧
      decodeAge (r.features.getD 1 9) = some a ∧
      decodeGender (r.features.getD 2 9) = some s ∧
      decodeSurvived r.label = some v := by
  have hck : cleanField k := by rcases hk with rfl | rfl | rfl <;> decide
  have hca : cleanField a := by rcases ha with rfl | rfl <;> decide
  have hcs : cleanField s := by rcases hs with rfl | rfl <;> decide
  have hcv : cleanField v := by rcases hv with rfl | rfl <;> decide
  rw [parse_mkLine pid k a s v hpid hck hca hcs hcv]
  rcases hk with rfl | rfl | rfl <;> rcases ha with rfl | rfl <;>
    rcases hs with rfl | rfl <;> rcases hv with rfl | rfl <;>
    exact ⟨_, rfl, by decide, by decide, by decide, by decide⟩

/-- C2 at a concrete input: the line `"9","3rd class","child","women","no"`
round-trips through the encoding. -/
theorem C2_roundtrip_witness :
    cleanField ("9".data) ∧
    (class3Tok = class1Tok ∨ class3Tok = class2Tok ∨ class3Tok = class3Tok) ∧
    (childTok = adultsTok ∨ childTok = childTok) ∧
    (womenTok = manTok ∨ womenTok = womenTok) ∧
    (noTok = yesTok ∨ noTok = noTok) ∧
    (∃ r, row_to_labeled_point (mkLine ("9".data) class3Tok childTok womenTok noTok) =
        .ok r ∧
      decodeClass (r.features.getD 0 9) = some class3Tok ∧
      decodeAge (r.features.getD 1 9) = some childTok ∧
      decodeGender (r.features.getD 2 9) = some womenTok ∧
      decodeSurvived r.label = some noTok) :=
  ⟨by decide, by decide, by decide, by decide, by decide,
   C2_roundtrip ("9".data) class3Tok childTok womenTok noTok (by decide)
     (by decide) (by decide) (by decide) (by decide)⟩

/-- Any record `parseFields` produces has a binary label and a three-entry
feature list whose age and gender entries are binary. -/
lemma parseFields_ok_ranges (fs : List (List Char)) (r : LabeledRecord)
    (h : parseFields fs = .ok r) :
    (r.label = 0 ∨ r.label = 1) ∧
    ∃ c a g, r.features = [c, a, g] ∧ (a = 0 ∨ a = 1) ∧ (g = 0 ∨ g = 1) := by
  rcases fs with _ | ⟨pid, _ | ⟨k, _ | ⟨a, _ | ⟨s, _ | ⟨v, _ | ⟨x, rest⟩⟩⟩⟩⟩⟩
  · exact Except.noConfusion h
  · exact Except.noConfusion h
  · exact Except.noConfusion h
  · exact Except.noConfusion h
  · exact Except.noConfusion h
  · rcases k with _ | ⟨c, k'⟩
    · exact Except.noConfusion h
    · rcases hint : pyIntOfChar c with _ | n
      · rw [show parseFields [pid, c :: k', a, s, v] = .error .classValueError by
          simp only [parseFields, List.head?_cons, hint]] at h
        exact Except.noConfusion h
      · simp only [parseFields, List.head?_cons, hint] at h
        split at h
        · exact Except.noConfusion h
        · injection h with h'
          rw [← h']
          refine ⟨?_, n - 1, _, _, rfl, ?_, ?_⟩
          · dsimp only
            split
            · exact Or.inr rfl
            · exact Or.inl rfl
          · dsimp only
            split
            · exact Or.inr rfl
            · exact Or.inl rfl
          · dsimp only
            split
            · exact Or.inr rfl
            · exact Or.inl rfl
  · exact Except.noConfusion h

/-- C9: every LabeledRecord the parser produces has its label in 0, 1 and its
age-group and gender features in 0, 1; only the class feature is unconstrained. -/
theorem C9_parsed_ranges (l : List Char) (r : LabeledRecord)
    (h : row_to_labeled_point l = .ok r) :
    (r.label = 0 ∨ r.label = 1) ∧
    ∃ c a g, r.features = [c, a, g] ∧ (a = 0 ∨ a = 1) ∧ (g = 0 ∨ g = 1) :=
  parseFields_ok_ranges ((splitComma l).map stripQuotes) r h

/-- A sampled data line of the notebook. -/
def sampleNoLine : List Char := "\"1204\",\"3rd class\",\"adults\",\"women\",\"no\"".data

/-- C9 at a concrete input: the record parsed from
`"1204","3rd class","adults","women","no"` has binary label, age and gender. -/
theorem C9_parsed_ranges_witness :
    row_to_labeled_point sampleNoLine = .ok ⟨0, [2, 1, 1]⟩ ∧
    (((0 : Int) = 0 ∨ (0 : Int) = 1) ∧
      ∃ c a g, ([2, 1, 1] : List Int) = [c, a, g] ∧ (a = 0 ∨ a = 1) ∧ (g = 0 ∨ g = 1)) :=
  ⟨by decide, C9_parsed_ranges sampleNoLine ⟨0, [2, 1, 1]⟩ (by decide)⟩

/-- The clean step: `header = raw_rdd.first()` and
`data_rdd = raw_rdd.filter(lambda line: line != header)`, keeping exactly the
lines different from the first line. -/
def dataLines (lines : List (List Char)) : List (List Char) :=
  match lines with
  | [] => []
  | h :: _ => lines.filter (fun l => !(l == h))

/-- C10: the clean step drops every line textually equal to the first line, not
only the single header occurrence, and preserves the relative order of the
remaining lines. -/
theorem C10_clean_drops_all_header_copies (h : List Char) (rest : List (List Char)) :
    dataLines (h :: rest) = rest.filter (fun l => !(l == h)) ∧
    h ∉ dataLines (h :: rest) ∧
    (dataLines (h :: rest)).Sublist (h :: rest) := by
  refine ⟨?_, ?_, ?_⟩
  · simp [dataLines, List.filter_cons]
  · intro hm
    unfold dataLines at hm
    rw [List.mem_filter] at hm
    simp at hm
  · unfold dataLines
    exact List.filter_sublist _

/-- Modelled from the spec: the notebook's train/test splitter is the external
library call `labeled_points_rdd.randomSplit([0.7, 0.3], seed = 0)`, whose
implementation is not part of this repository. Following the spec's contract —
probabilistic per-record assignment, deterministic given the same seed and input
order — each record draws the next state of a linear congruential generator
seeded from the given seed, and is assigned to the training subset when the
draw falls below the per-mille threshold (700 for a 0.7/0.3 ratio) and to the
test subset otherwise. -/
def randomSplitGo {α : Type} (thr : Nat) : Nat → List α → List α × List α
  | _, [] => ([], [])
  | state, x :: xs =>
    let s := (state * 1103515245 + 12345) % 2147483648
    let rest := randomSplitGo thr s xs
    if s % 1000 < thr then (x :: rest.1, rest.2) else (rest.1, x :: rest.2)

/-- Modelled from the spec: `randomSplit` maps a per-mille split ratio, a seed
and the input records to the (training, test) pair of subsets. -/
def randomSplit {α : Type} (thr seed : Nat) (l : List α) : List α × List α :=
  randomSplitGo thr seed l

/-- C6: two runs of the splitter with the same ratio, the same seed and the same
input in the same order produce identical training and test subsets. -/
theorem C6_randomSplit_deterministic (thr1 thr2 seed1 seed2 : Nat)
    (l1 l2 : List LabeledRecord)
    (hthr : thr1 = thr2) (hseed : seed1 = seed2) (hl : l1 = l2) :
    randomSplit thr1 seed1 l1 = randomSplit thr2 seed2 l2 := by
  rw [hthr, hseed, hl]

/-- C6 at a concrete input: the two runs agree on a two-record list. -/
theorem C6_randomSplit_deterministic_witness :
    (700 = 700 ∧ 0 = 0 ∧
      ([⟨1, [0, 1, 0]⟩, ⟨0, [2, 1, 1]⟩] : List LabeledRecord) = [⟨1, [0, 1, 0]⟩, ⟨0, [2, 1, 1]⟩]) ∧
    randomSplit 700 0 ([⟨1, [0, 1, 0]⟩, ⟨0, [2, 1, 1]⟩] : List LabeledRecord) =
      randomSplit 700 0 ([⟨1, [0, 1, 0]⟩, ⟨0, [2, 1, 1]⟩] : List LabeledRecord) :=
  ⟨⟨rfl, rfl, rfl⟩,
   C6_randomSplit_deterministic 700 700 0 0 _ _ rfl rfl rfl⟩

lemma randomSplitGo_length {α : Type} (thr : Nat) (state : Nat) (l : List α) :
    (randomSplitGo thr state l).1.length + (randomSplitGo thr state l).2.length =
      l.length := by
  induction l generalizing state with
  | nil => rfl
  | cons x xs ih =>
    have h := ih ((state * 1103515245 + 12345) % 2147483648)
    simp only [randomSplitGo]
    split <;> simp only [List.length_cons] <;> omega

lemma randomSplitGo_sublist_left {α : Type} (thr : Nat) (state : Nat) (l : List α) :
    (randomSplitGo thr state l).1.Sublist l := by
  induction l generalizing state with
  | nil => exact List.Sublist.refl _
  | cons x xs ih =>
    simp only [randomSplitGo]
    split
    · exact List.Sublist.cons₂ x (ih _)
    · exact List.Sublist.cons x (ih _)

lemma randomSplitGo_sublist_right {α : Type} (thr : Nat) (state : Nat) (l : List α) :
    (randomSplitGo thr state l).2.Sublist l := by
  induction l generalizing state with
  | nil => exact List.Sublist.refl _
  | cons x xs ih =>
    simp only [randomSplitGo]
    split
    · exact List.Sublist.cons x (ih _)
    · exact List.Sublist.cons₂ x (ih _)

lemma randomSplitGo_count {α : Type} [DecidableEq α] (thr : Nat) (state : Nat)
    (l : List α) (x : α) :
    (randomSplitGo thr state l).1.count x + (randomSplitGo thr state l).2.count x =
      l.count x := by
  induction l generalizing state with
  | nil => rfl
  | cons y ys ih =>
    have h := ih ((state * 1103515245 + 12345) % 2147483648)
    simp only [randomSplitGo]
    rcases eq_or_ne y x with rfl | hyx
    · split <;> simp only [List.count_cons_self] <;> omega
    · split <;> simp only [List.count_cons, hyx, if_false] <;> simp [hyx] <;> omega

/-- C7: the splitter partitions its input: each subset is an order-preserving
selection of the input, every occurrence of a record goes to exactly one of the
two subsets, and the two sizes sum to the input size. -/
theorem C7_randomSplit_partition (thr seed : Nat) (l : List LabeledRecord) :
    (randomSplit thr seed l).1.length + (randomSplit thr seed l).2.length = l.length ∧
    (randomSplit thr seed l).1.Sublist l ∧
    (randomSplit thr seed l).2.Sublist l ∧
    ∀ x, (randomSplit thr seed l).1.count x + (randomSplit thr seed l).2.count x =
      l.count x :=
  ⟨randomSplitGo_length thr seed l, randomSplitGo_sublist_left thr seed l,
   randomSplitGo_sublist_right thr seed l, fun x => randomSplitGo_count thr seed l x⟩

/-- The evaluator: pair each true label with its prediction, count matching
pairs, and divide by the test count, as in
`truth_and_predictions_rdd.filter(lambda v_p: v_p[0] == v_p[1]).count() / float(test_count)`. -/
def accuracy (truths preds : List Int) : ℚ :=
  (((truths.zip preds).filter (fun vp => vp.1 == vp.2)).length : ℚ) / (truths.length : ℚ)

/-- C8: for a non-empty test subset paired with its predictions, the accuracy is
the number of matching truth/prediction pairs over the total test count, lies in
[0, 1], equals 1 when every prediction matches and 0 when none matches. -/
theorem C8_accuracy_correct (t p : List Int) (hne : t ≠ []) (hlen : t.length = p.length) :
    accuracy t p =
      (((t.zip p).filter (fun vp => vp.1 == vp.2)).length : ℚ) / (t.length : ℚ) ∧
    0 ≤ accuracy t p ∧ accuracy t p ≤ 1 ∧
    ((∀ x ∈ t.zip p, x.1 = x.2) → accuracy t p = 1) ∧
    ((∀ x ∈ t.zip p, x.1 ≠ x.2) → accuracy t p = 0) := by
  have hpos : (0 : ℚ) < (t.length : ℚ) := by
    have h0 : 0 < t.length := List.length_pos.mpr hne
    exact_mod_cast h0
  have hziplen : (t.zip p).length = t.length := by
    rw [List.length_zip, hlen, Nat.min_self]
  refine ⟨rfl, ?_, ?_, ?_, ?_⟩
  · exact div_nonneg (Nat.cast_nonneg _) hpos.le
  · unfold accuracy
    rw [div_le_one hpos]
    have h1 : ((t.zip p).filter (fun vp => vp.1 == vp.2)).length ≤ (t.zip p).length :=
      List.length_filter_le _ _
    exact_mod_cast h1.trans (le_of_eq hziplen)
  · intro hall
    unfold accuracy
    have hfil : (t.zip p).filter (fun vp => vp.1 == vp.2) = t.zip p :=
      List.filter_eq_self.mpr (fun a ha => by simpa using hall a ha)
    rw [hfil, hziplen, div_self hpos.ne']
  · intro hnone
    unfold accuracy
    have hfil : (t.zip p).filter (fun vp => vp.1 == vp.2) = [] :=
      List.filter_eq_nil_iff.mpr (fun a ha => by simpa using hnone a ha)
    rw [hfil]
    simp

/-- C8 at a concrete input: truths [0, 1] against predictions [0, 0]. -/
theorem C8_accuracy_correct_witness :
    (([0, 1] : List Int) ≠ [] ∧ ([0, 1] : List Int).length = ([0, 0] : List Int).length) ∧
    (accuracy [0, 1] [0, 0] =
        (((([0, 1] : List Int).zip ([0, 0] : List Int)).filter
            (fun vp => vp.1 == vp.2)).length : ℚ) /
          ((([0, 1] : List Int)).length : ℚ) ∧
      0 ≤ accuracy [0, 1] [0, 0] ∧ accuracy [0, 1] [0, 0] ≤ 1 ∧
      ((∀ x ∈ ([0, 1] : List Int).zip ([0, 0] : List Int), x.1 = x.2) →
        accuracy [0, 1] [0, 0] = 1) ∧
      ((∀ x ∈ ([0, 1] : List Int).zip ([0, 0] : List Int), x.1 ≠ x.2) →
        accuracy [0, 1] [0, 0] = 0)) :=
  ⟨⟨by decide, by decide⟩, C8_accuracy_correct [0, 1] [0, 0] (by decide) (by decide)⟩

end Titanic
